import Mathlib

/-!
Verification development for `elasticapm/contrib/sanic/utils.py` of the
apm-agent-python Sanic integration.  The Python functions `get_env`,
`extract_header`, `get_request_info`, `get_response_info` and
`_get_client_ip` are shallowly embedded below; Python dictionaries are
embedded as association lists with Python's insertion/update semantics,
bytes as lists of naturals, and `bytes.decode("utf-8")` as an explicit
UTF-8 decoder returning `Option String` (`none` models the raised
`UnicodeDecodeError`).
-/

namespace ApmSanic

/-- Values stored in the result mappings produced by the two info functions. -/
inductive Value where
  | s : String → Value
  | b : Bool → Value
  | i : Int → Value
  | dict : List (String × Value) → Value

/-- `d[k]` presence test for a Python dict embedded as an association list. -/
def dictHasKey {α : Type} (d : List (String × α)) (k : String) : Bool :=
  d.any (fun p => p.1 == k)

/-- Python dict assignment `d[k] = v`: an existing key keeps its position and
gets the new value, a new key is appended at the end. -/
def dictInsert {α : Type} (d : List (String × α)) (k : String) (v : α) :
    List (String × α) :=
  if dictHasKey d k then d.map (fun p => if p.1 == k then (p.1, v) else p)
  else d ++ [(k, v)]

/-- Python `d.pop(k, None)`: removes the key if present, never raises. -/
def dictPop {α : Type} (d : List (String × α)) (k : String) : List (String × α) :=
  d.filter (fun p => p.1 != k)

/-- Python `d[k]` / `d.get(k)` lookup. -/
def dictLookup {α : Type} (d : List (String × α)) (k : String) : Option α :=
  (d.find? (fun p => p.1 == k)).map (fun p => p.2)

/-- Python `dict(pairs)`: builds a dict by successive assignment. -/
def dictOfPairs {α : Type} (ps : List (String × α)) : List (String × α) :=
  ps.foldl (fun d p => dictInsert d p.1 p.2) []

/-- Python `d.update(other)`: assigns every pair of `other` into `d`. -/
def dictUpdate {α : Type} (d other : List (String × α)) : List (String × α) :=
  other.foldl (fun acc p => dictInsert acc p.1 p.2) d

/-- Number of entries of the association list carrying the key `k`. -/
def dictCountKey {α : Type} (d : List (String × α)) (k : String) : Nat :=
  (d.filter (fun p => p.1 == k)).length

/-- `leadsWith pat l` is true when `pat` is an initial segment of `l`
(character-list form of Python `str.startswith`). -/
def leadsWith : List Char → List Char → Bool
  | [], _ => true
  | _ :: _, [] => false
  | a :: as, b :: bs => a == b && leadsWith as bs

/-- `containsSeq pat l`: `pat` occurs contiguously inside `l`
(character-list form of Python `pat in l`). -/
def containsSeq (pat : List Char) : List Char → Bool
  | [] => pat.isEmpty
  | c :: t => leadsWith pat (c :: t) || containsSeq pat t

/-- Python `s.startswith(pat)`. -/
def strStartsWith (s pat : String) : Bool := leadsWith pat.data s.data

/-- Python `pat in s` (substring containment). -/
def strContains (s pat : String) : Bool := containsSeq pat.data s.data

/-- One byte of a UTF-8 continuation: `0x80 ≤ b < 0xC0`. -/
def isContByte (b : Nat) : Bool := 0x80 ≤ b && b < 0xC0

/-- Strict UTF-8 decoder over a byte list, as performed by Python's
`bytes.decode("utf-8")`: rejects stray continuation bytes, truncated
sequences, overlong encodings, surrogates and code points above
`0x10FFFF`.  Returns the decoded characters, or `none` on any error. -/
def utf8DecodeList : List Nat → Option (List Char)
  | [] => some []
  | b0 :: l =>
    if b0 < 0x80 then
      (utf8DecodeList l).map (fun cs => Char.ofNat b0 :: cs)
    else if b0 < 0xC0 then none
    else if b0 < 0xE0 then
      match l with
      | b1 :: l1 =>
        if isContByte b1 then
          let c := (b0 % 0x20) * 0x40 + b1 % 0x40
          if c < 0x80 then none
          else (utf8DecodeList l1).map (fun cs => Char.ofNat c :: cs)
        else none
      | [] => none
    else if b0 < 0xF0 then
      match l with
      | b1 :: b2 :: l2 =>
        if isContByte b1 && isContByte b2 then
          let c := (b0 % 0x10) * 0x1000 + (b1 % 0x40) * 0x40 + b2 % 0x40
          if c < 0x800 || (0xD800 ≤ c && c < 0xE000) then none
          else (utf8DecodeList l2).map (fun cs => Char.ofNat c :: cs)
        else none
      | _ => none
    else if b0 < 0xF8 then
      match l with
      | b1 :: b2 :: b3 :: l3 =>
        if isContByte b1 && isContByte b2 && isContByte b3 then
          let c := (b0 % 8) * 0x40000 + (b1 % 0x40) * 0x1000 +
            (b2 % 0x40) * 0x40 + b3 % 0x40
          if c < 0x10000 || 0x110000 ≤ c then none
          else (utf8DecodeList l3).map (fun cs => Char.ofNat c :: cs)
        else none
      | _ => none
    else none
  termination_by structural l => l

/-- Python `bytes.decode("utf-8")` on a byte list: `some` decoded string, or
`none` when the bytes are not valid UTF-8 (the `UnicodeDecodeError` case). -/
def utf8Decode (bytes : List Nat) : Option String :=
  (utf8DecodeList bytes).map (fun cs => String.mk cs)

/-- The slice of `elasticapm.conf.Config` read by the two info functions. -/
structure Config where
  capture_headers : Bool
  capture_body : Bool

/-- The slice of `sanic.request.Request` read by the embedded functions.
`hasattr` probes on the three environment attributes are embedded as
`Option` fields; `body` is the raw byte string; `socket` is the
`(ip, port)` pair whose both-`None` form is the sentinel; `forwarded`
is the forwarded-for header string (`""` when falsy/absent). -/
structure Request where
  server_name : Option String
  server_port : Option String
  version : Option String
  method : String
  scheme : String
  cookies : List (String × String)
  headers : List (String × String)
  content_type : String
  body : List Nat
  url : String
  forwarded : String
  socket : Option String × Option Nat
  ip : String
  port : Nat
  remote_addr : String
  app_config : List (String × String)

/-- The slice of `sanic.response.HTTPResponse` read by the embedded
functions.  `status` is `some n` when the Python status value is of
integer type (the `isinstance(response.status, compat.integer_types)`
test), `none` otherwise. -/
structure Response where
  cookies : List (String × String)
  status : Option Int
  headers : List (String × String)
  content_type : String
  body : List Nat

/-- Modelled from the spec: `elasticapm.conf.constants.HTTP_WITH_BODY`
(the set of HTTP methods considered body-bearing) is imported by the
source but its module is not part of this excerpt.  The spec only calls
it "a set of HTTP methods considered body-bearing"; the standard set of
the library is used.  All claims quantify over membership, so the exact
contents are never load-bearing. -/
def HTTP_WITH_BODY : List String := ["POST", "PUT", "PATCH", "DELETE"]

/-- Modelled from the spec: `elasticapm.utils.get_url_dict` is imported
by the source but its module is not part of this excerpt; the spec says
only that it converts the URL into a structured mapping.  No claim
depends on its output, so the conversion is kept abstract as a one-key
mapping holding the raw URL. -/
def get_url_dict (url : String) : Value :=
  Value.dict [("full", Value.s url)]

/-- Python `f"{x}"` of an optional string attribute (`None` prints as
`"None"`). -/
def pyStrOf : Option String → String
  | some s => s
  | none => "None"

/-- Python `f"{x}"` of an optional int attribute (`None` prints as
`"None"`). -/
def pyNatOf : Option Nat → String
  | some n => toString n
  | none => "None"

/-- `get_env(request)`: for each attribute of the fixed tuple
`("server_name", "server_port", "version")`, yields the `(name, value)`
pair when `hasattr(request, attr)` holds. -/
def get_env (r : Request) : List (String × String) :=
  ([("server_name", r.server_name), ("server_port", r.server_port),
    ("version", r.version)]).filterMap
    (fun p => p.2.map (fun v => (p.1, v)))

/-- `extract_header(entity, skip_headers)` applied to the entity's header
mapping: copies the headers into a fresh dict and pops each name of the
skip list (Python truthiness: `None` and the empty list both skip the
loop). -/
def extract_header (headers : List (String × String))
    (skip_headers : Option (List String)) : List (String × String) :=
  let header := dictOfPairs headers
  match skip_headers with
  | none => header
  | some skips =>
    if skips.isEmpty then header
    else skips.foldl (fun h k => dictPop h k) header

/-- Python `str.split(c)` for a one-character separator, over the
character list: every occurrence of `c` separates fields, empty fields
are kept. -/
def splitOnChar (c : Char) : List Char → List (List Char)
  | [] => [[]]
  | x :: t =>
    let r := splitOnChar c t
    if x == c then [] :: r
    else
      match r with
      | h :: t2 => (x :: h) :: t2
      | [] => [[x]]

/-- Python `s.split(",")`. -/
def pySplitComma (s : String) : List String :=
  (splitOnChar ',' s.data).map (fun cs => String.mk cs)

/-- `_get_client_ip(request)`: forwarded-for header first, then the
socket pair unless it is the `(None, None)` sentinel, then the truthy
`ip`/`port` pair, then `remote_addr`. -/
def _get_client_ip (r : Request) : String :=
  if r.forwarded ≠ "" then
    ((pySplitComma r.forwarded).headD "")
  else
    if r.socket ≠ (none, none) then
      pyStrOf r.socket.1 ++ ":" ++ pyNatOf r.socket.2
    else if r.ip ≠ "" ∧ r.port ≠ 0 then
      r.ip ++ ":" ++ toString r.port
    else r.remote_addr

/-- The `env` dict of `get_request_info`:
`env = dict(get_env(request)); env.update(dict(request.app.config))`. -/
def request_env (r : Request) : List (String × String) :=
  dictUpdate (dictOfPairs (get_env r)) (dictOfPairs r.app_config)

/-- Lifts a string-valued dict into the `Value` universe. -/
def strDictVal (d : List (String × String)) : Value :=
  Value.dict (d.map (fun p => (p.1, Value.s p.2)))

/-- The content-type test of the request body block:
`request.content_type.startswith("multipart") or "octet-stream" in
request.content_type`. -/
def request_ct_discard (r : Request) : Bool :=
  strStartsWith r.content_type "multipart" || strContains r.content_type "octet-stream"

/-- The guard of the request body block:
`request.method in constants.HTTP_WITH_BODY and config.capture_body`. -/
def request_capture_body (config : Config) (r : Request) : Bool :=
  HTTP_WITH_BODY.contains r.method && config.capture_body

/-- The initial `result` literal of `get_request_info` (lines building the
dict with `env`, `method`, `socket` and `cookies`). -/
def request_result_base (r : Request) : List (String × Value) :=
  dictOfPairs
    [("env", strDictVal (request_env r)),
     ("method", Value.s r.method),
     ("socket", Value.dict
        [("remote_address", Value.s (_get_client_ip r)),
         ("encrypted", Value.b (r.scheme == "https" || r.scheme == "wss"))]),
     ("cookies", strDictVal r.cookies)]

/-- The `if config.capture_headers:` statement of `get_request_info`. -/
def request_result_headers (config : Config) (r : Request)
    (skip_headers : Option (List String)) (result : List (String × Value)) :
    List (String × Value) :=
  if config.capture_headers then
    dictInsert result "headers" (strDictVal (extract_header r.headers skip_headers))
  else result

/-- The body block of `get_request_info`, embedded faithfully: the
discarded-marker assignment for multipart/octet-stream content is
followed (without short-circuit) by the guarded UTF-8 decode, whose
failure is swallowed (`except: pass`). -/
def request_result_body (config : Config) (r : Request)
    (result : List (String × Value)) : List (String × Value) :=
  if request_capture_body config r then
    let result :=
      if request_ct_discard r then
        dictInsert result "body" (Value.s "[DISCARDED]")
      else result
    match utf8Decode r.body with
    | some s => dictInsert result "body" (Value.s s)
    | none => result
  else result

/-- The `if "body" not in result:` default of `get_request_info`. -/
def request_result_default_body (result : List (String × Value)) :
    List (String × Value) :=
  if !dictHasKey result "body" then
    dictInsert result "body" (Value.s "[REDACTED]")
  else result

/-- `get_request_info(config, request, skip_headers)`: the statements of
the source function in order, ending with the structured `url` entry. -/
def get_request_info (config : Config) (r : Request)
    (skip_headers : Option (List String)) : List (String × Value) :=
  dictInsert
    (request_result_default_body
      (request_result_body config r
        (request_result_headers config r skip_headers
          (request_result_base r))))
    "url" (get_url_dict r.url)

/-- The initial `result` literal of `get_response_info` plus the
`status_code` statement guarded by the integer-type test. -/
def response_result_base (resp : Response) : List (String × Value) :=
  let result : List (String × Value) := dictOfPairs
    [("cookies", strDictVal resp.cookies)]
  match resp.status with
  | some n => dictInsert result "status_code" (Value.i n)
  | none => result

/-- The `if config.capture_headers:` statement of `get_response_info`. -/
def response_result_headers (config : Config) (resp : Response)
    (skip_headers : Option (List String)) (result : List (String × Value)) :
    List (String × Value) :=
  if config.capture_headers then
    dictInsert result "headers" (strDictVal (extract_header resp.headers skip_headers))
  else result

/-- `get_response_info(config, response, skip_headers)`.  The UTF-8
decode of the response body is NOT guarded in the source, so a decode
failure propagates: the embedding returns `none` exactly when the
Python function raises `UnicodeDecodeError`. -/
def get_response_info (config : Config) (resp : Response)
    (skip_headers : Option (List String)) : Option (List (String × Value)) :=
  let result := response_result_headers config resp skip_headers
    (response_result_base resp)
  if config.capture_body && !strContains resp.content_type "octet-stream" then
    match utf8Decode resp.body with
    | some s => some (dictInsert result "body" (Value.s s))
    | none => none
  else
    some (dictInsert result "body" (Value.s "[REDACTED]"))

/-! ### Concrete sample configurations, requests and responses -/

/-- Capture everything. -/
def cfgAllOn : Config := { capture_headers := true, capture_body := true }

/-- Capture nothing. -/
def cfgAllOff : Config := { capture_headers := false, capture_body := false }

/-- Capture the body but not the headers. -/
def cfgBodyOnly : Config := { capture_headers := false, capture_body := true }

/-- A plain JSON POST request with the valid UTF-8 body `"ab"`. -/
def reqJson : Request :=
  { server_name := some "srv", server_port := some "8080", version := none
  , method := "POST", scheme := "https"
  , cookies := [("sid", "x")]
  , headers := [("Host", "example.com"), ("X-Secret", "s")]
  , content_type := "application/json", body := [0x61, 0x62]
  , url := "https://example.com/a"
  , forwarded := "", socket := (none, none)
  , ip := "", port := 0, remote_addr := "10.0.0.9"
  , app_config := [("server_name", "app-srv")] }

/-- A multipart POST request whose raw body `"a"` is valid UTF-8. -/
def reqMulti : Request :=
  { reqJson with content_type := "multipart/form-data", body := [0x61] }

/-- A POST request whose body byte `0xFF` is not valid UTF-8. -/
def reqBadBody : Request :=
  { reqJson with content_type := "text/plain", body := [0xFF] }

/-- A multipart POST request whose body byte `0xFF` is not valid UTF-8. -/
def reqMultiBad : Request :=
  { reqJson with content_type := "multipart/form-data", body := [0xFF] }

/-- A request carrying a forwarded-for header with two hops. -/
def reqFwd : Request :=
  { reqJson with forwarded := "1.2.3.4, 5.6.7.8" }

/-- A request with no forwarded-for header but a socket pair. -/
def reqSock : Request :=
  { reqJson with socket := (some "9.9.9.9", some 80) }

/-- A request with neither forwarded-for nor socket, but ip/port. -/
def reqIpPort : Request :=
  { reqJson with ip := "7.7.7.7", port := 8080 }

/-- A plain-text response with the valid UTF-8 body `"ok"`. -/
def respOk : Response :=
  { cookies := [("sid", "x")]
  , status := some 200
  , headers := [("Server", "sanic"), ("X-Secret", "s")]
  , content_type := "text/plain", body := [0x6F, 0x6B] }

/-- A plain-text response whose body byte `0xFF` is not valid UTF-8. -/
def respBad : Response :=
  { respOk with body := [0xFF] }

/-! ### Lemmas about the embedded Python-dict operations -/

theorem dictHasKey_nil {α : Type} (k : String) : dictHasKey ([] : List (String × α)) k = false :=
  rfl

theorem dictHasKey_cons {α : Type} (p : String × α) (t : List (String × α)) (k : String) :
    dictHasKey (p :: t) k = (p.1 == k || dictHasKey t k) := by
  simp [dictHasKey]

theorem dictLookup_nil {α : Type} (k : String) : dictLookup ([] : List (String × α)) k = none :=
  rfl

theorem dictLookup_cons {α : Type} (p : String × α) (t : List (String × α)) (k : String) :
    dictLookup (p :: t) k = if p.1 == k then some p.2 else dictLookup t k := by
  by_cases h : p.1 == k <;> simp [dictLookup, List.find?, h]

theorem dictCountKey_nil {α : Type} (k : String) : dictCountKey ([] : List (String × α)) k = 0 :=
  rfl

theorem dictCountKey_cons {α : Type} (p : String × α) (t : List (String × α)) (k : String) :
    dictCountKey (p :: t) k = (if p.1 == k then 1 else 0) + dictCountKey t k := by
  cases h : (p.1 == k) with
  | false => simp [dictCountKey, List.filter_cons, h]
  | true => simp [dictCountKey, List.filter_cons, h]; omega

theorem map_assign_fst {α : Type} (p : String × α) (k : String) (v : α) :
    ((if p.1 == k then (p.1, v) else p)).1 = p.1 := by
  by_cases h : p.1 == k <;> simp [h]

theorem dictHasKey_map_assign {α : Type} (d : List (String × α)) (k k' : String) (v : α) :
    dictHasKey (d.map (fun p => if p.1 == k then (p.1, v) else p)) k'
      = dictHasKey d k' := by
  induction d with
  | nil => rfl
  | cons p t ih =>
    simp only [List.map_cons, dictHasKey_cons, map_assign_fst, ih]

theorem dictHasKey_insert {α : Type} (d : List (String × α)) (k k' : String) (v : α) :
    dictHasKey (dictInsert d k v) k' = (dictHasKey d k' || k == k') := by
  unfold dictInsert
  by_cases h : dictHasKey d k
  · simp only [h, if_true, dictHasKey_map_assign]
    by_cases hkk : k = k'
    · subst hkk; simp [h]
    · simp [hkk]
  · simp only [h, Bool.false_eq_true, if_false]
    simp [dictHasKey, List.any_append]

theorem dictLookup_map_assign_self {α : Type} (d : List (String × α)) (k : String) (v : α)
    (h : dictHasKey d k = true) :
    dictLookup (d.map (fun p => if p.1 == k then (p.1, v) else p)) k = some v := by
  induction d with
  | nil => simp [dictHasKey] at h
  | cons p t ih =>
    simp only [List.map_cons, dictLookup_cons, map_assign_fst]
    cases hp : (p.1 == k) with
    | true => simp [hp]
    | false =>
      simp only [hp, Bool.false_eq_true, if_false]
      rw [dictHasKey_cons, hp, Bool.false_or] at h
      exact ih h

theorem dictLookup_map_assign_ne {α : Type} (d : List (String × α)) (k k' : String) (v : α)
    (hne : k ≠ k') :
    dictLookup (d.map (fun p => if p.1 == k then (p.1, v) else p)) k'
      = dictLookup d k' := by
  induction d with
  | nil => rfl
  | cons p t ih =>
    simp only [List.map_cons, dictLookup_cons, map_assign_fst, ih]
    cases hp : (p.1 == k') with
    | true =>
      have hpe : p.1 = k' := by simpa [beq_iff_eq] using hp
      have hpk : (p.1 == k) = false := by
        rw [beq_eq_false_iff_ne, hpe]
        exact fun hc => hne hc.symm
      simp [hp, hpk]
    | false => simp [hp]

theorem dictLookup_append_ne {α : Type} (d : List (String × α)) (k k' : String) (v : α)
    (hne : k ≠ k') :
    dictLookup (d ++ [(k, v)]) k' = dictLookup d k' := by
  induction d with
  | nil =>
    have hk : (k == k') = false := beq_eq_false_iff_ne.mpr hne
    simp [dictLookup_nil, dictLookup_cons, hk]
  | cons p t ih =>
    simp only [List.cons_append, dictLookup_cons, ih]

theorem dictLookup_append_self {α : Type} (d : List (String × α)) (k : String) (v : α)
    (h : dictHasKey d k = false) :
    dictLookup (d ++ [(k, v)]) k = some v := by
  induction d with
  | nil => simp [dictLookup_cons]
  | cons p t ih =>
    rw [dictHasKey_cons, Bool.or_eq_false_iff] at h
    simp only [List.cons_append, dictLookup_cons, h.1, Bool.false_eq_true, if_false]
    exact ih h.2

theorem dictLookup_insert_self {α : Type} (d : List (String × α)) (k : String) (v : α) :
    dictLookup (dictInsert d k v) k = some v := by
  unfold dictInsert
  cases h : dictHasKey d k with
  | true =>
    simp only [if_true]
    exact dictLookup_map_assign_self d k v h
  | false =>
    simp only [Bool.false_eq_true, if_false]
    exact dictLookup_append_self d k v h

theorem dictLookup_insert_ne {α : Type} (d : List (String × α)) (k k' : String) (v : α)
    (hne : k ≠ k') :
    dictLookup (dictInsert d k v) k' = dictLookup d k' := by
  unfold dictInsert
  cases h : dictHasKey d k with
  | true =>
    simp only [if_true]
    exact dictLookup_map_assign_ne d k k' v hne
  | false =>
    simp only [Bool.false_eq_true, if_false]
    exact dictLookup_append_ne d k k' v hne

theorem dictCountKey_map_assign {α : Type} (d : List (String × α)) (k k' : String) (v : α) :
    dictCountKey (d.map (fun p => if p.1 == k then (p.1, v) else p)) k'
      = dictCountKey d k' := by
  induction d with
  | nil => rfl
  | cons p t ih =>
    simp only [List.map_cons, dictCountKey_cons, map_assign_fst, ih]

theorem dictCountKey_insert_self {α : Type} (d : List (String × α)) (k : String) (v : α) :
    dictCountKey (dictInsert d k v) k
      = if dictHasKey d k then dictCountKey d k else dictCountKey d k + 1 := by
  unfold dictInsert
  by_cases h : dictHasKey d k
  · simp only [h, if_true]
    exact dictCountKey_map_assign d k k v
  · simp only [h, Bool.false_eq_true, if_false]
    simp [dictCountKey, List.filter_append]

theorem dictCountKey_insert_ne {α : Type} (d : List (String × α)) (k k' : String) (v : α)
    (hne : k ≠ k') :
    dictCountKey (dictInsert d k v) k' = dictCountKey d k' := by
  unfold dictInsert
  by_cases h : dictHasKey d k
  · simp only [h, if_true]
    exact dictCountKey_map_assign d k k' v
  · simp only [h, Bool.false_eq_true, if_false]
    have : ((k, v).1 == k') = false := by simpa [beq_iff_eq] using hne
    simp [dictCountKey, List.filter_append, this]

/-- The value of the last pair of `c` carrying the key `k` — the value a
sequence of Python dict assignments of the pairs of `c` leaves behind. -/
def lastAssign {α : Type} : List (String × α) → String → Option α
  | [], _ => none
  | p :: t, k =>
    match lastAssign t k with
    | some v => some v
    | none => if p.1 == k then some p.2 else none

theorem lastAssign_append_single {α : Type} (c : List (String × α)) (q : String × α)
    (k : String) :
    lastAssign (c ++ [q]) k = if q.1 == k then some q.2 else lastAssign c k := by
  induction c with
  | nil => simp [lastAssign]
  | cons p t ih =>
    simp only [List.cons_append, lastAssign]
    rw [show (t.append [q]) = t ++ [q] from rfl, ih]
    cases hq : (q.1 == k) with
    | true => simp
    | false => simp

theorem lastAssign_none_of_hasKey_false {α : Type} (d : List (String × α)) (k : String)
    (h : dictHasKey d k = false) : lastAssign d k = none := by
  induction d with
  | nil => rfl
  | cons p t ih =>
    rw [dictHasKey_cons, Bool.or_eq_false_iff] at h
    simp only [lastAssign, ih h.2, h.1, Bool.false_eq_true, if_false]

theorem lastAssign_map_assign_self {α : Type} (d : List (String × α)) (k : String) (v : α)
    (h : dictHasKey d k = true) :
    lastAssign (d.map (fun p => if p.1 == k then (p.1, v) else p)) k = some v := by
  induction d with
  | nil => simp [dictHasKey] at h
  | cons p t ih =>
    rw [dictHasKey_cons] at h
    simp only [List.map_cons, lastAssign]
    cases ht : dictHasKey t k with
    | true =>
      rw [ih ht]
    | false =>
      have hmt : dictHasKey (t.map (fun p => if p.1 == k then (p.1, v) else p)) k = false := by
        rw [dictHasKey_map_assign]; exact ht
      rw [lastAssign_none_of_hasKey_false _ _ hmt]
      have hp : (p.1 == k) = true := by
        rcases Bool.or_eq_true_iff.mp h with h1 | h2
        · exact h1
        · rw [h2] at ht; cases ht
      simp [map_assign_fst, hp]

theorem map_assign_eq {α : Type} (k : String) (v : α) :
    (fun p : String × α => if p.1 == k then (p.1, v) else p)
      = fun p : String × α => (p.1, if p.1 == k then v else p.2) := by
  funext p
  cases h : (p.1 == k) with
  | true => simp
  | false => simp

theorem lastAssign_map_assign_ne {α : Type} (d : List (String × α)) (k k' : String) (v : α)
    (hne : k ≠ k') :
    lastAssign (d.map (fun p => if p.1 == k then (p.1, v) else p)) k'
      = lastAssign d k' := by
  rw [map_assign_eq]
  induction d with
  | nil => rfl
  | cons p t ih =>
    simp only [List.map_cons, lastAssign]
    rw [ih]
    cases ht : lastAssign t k' with
    | some w => rfl
    | none =>
      cases hp : (p.1 == k') with
      | false => rfl
      | true =>
        have hpe : p.1 = k' := by simpa [beq_iff_eq] using hp
        have hpk : (p.1 == k) = false := by
          rw [beq_eq_false_iff_ne, hpe]
          exact fun hc => hne hc.symm
        simp [hpk]

theorem lastAssign_insert {α : Type} (d : List (String × α)) (k k' : String) (v : α) :
    lastAssign (dictInsert d k v) k'
      = if k == k' then some v else lastAssign d k' := by
  unfold dictInsert
  by_cases hkk : k = k'
  · subst hkk
    simp only [beq_self_eq_true, if_true]
    cases h : dictHasKey d k with
    | true =>
      simp only [if_true]
      exact lastAssign_map_assign_self d k v h
    | false =>
      simp only [Bool.false_eq_true, if_false]
      rw [lastAssign_append_single]
      simp
  · have hb : (k == k') = false := beq_eq_false_iff_ne.mpr hkk
    simp only [hb, Bool.false_eq_true, if_false]
    cases h : dictHasKey d k with
    | true =>
      simp only [if_true]
      exact lastAssign_map_assign_ne d k k' v hkk
    | false =>
      simp only [Bool.false_eq_true, if_false]
      rw [lastAssign_append_single]
      simp [hb]

theorem dictUpdate_append_single {α : Type} (d c : List (String × α)) (q : String × α) :
    dictUpdate d (c ++ [q]) = dictInsert (dictUpdate d c) q.1 q.2 := by
  simp [dictUpdate, List.foldl_append]

theorem dictLookup_update {α : Type} (d c : List (String × α)) (k : String) :
    dictLookup (dictUpdate d c) k
      = match lastAssign c k with
        | some v => some v
        | none => dictLookup d k := by
  induction c using List.reverseRecOn with
  | nil => rfl
  | append_singleton c q ih =>
    rw [dictUpdate_append_single, lastAssign_append_single]
    cases hq : (q.1 == k) with
    | true =>
      have hqe : q.1 = k := by simpa [beq_iff_eq] using hq
      rw [← hqe]
      simp [dictLookup_insert_self]
    | false =>
      have hqe : q.1 ≠ k := by simpa [beq_eq_false_iff_ne] using hq
      rw [dictLookup_insert_ne _ _ _ _ hqe]
      simp only [Bool.false_eq_true, if_false, ih]

theorem dictOfPairs_eq_update_nil {α : Type} (c : List (String × α)) :
    dictOfPairs c = dictUpdate [] c := rfl

theorem dictLookup_ofPairs {α : Type} (c : List (String × α)) (k : String) :
    dictLookup (dictOfPairs c) k = lastAssign c k := by
  rw [dictOfPairs_eq_update_nil, dictLookup_update]
  cases h : lastAssign c k
  · simp [dictLookup_nil]
  · simp

theorem lastAssign_ofPairs {α : Type} (c : List (String × α)) (k : String) :
    lastAssign (dictOfPairs c) k = lastAssign c k := by
  induction c using List.reverseRecOn with
  | nil => rfl
  | append_singleton c q ih =>
    rw [dictOfPairs_eq_update_nil, dictUpdate_append_single, lastAssign_insert,
      ← dictOfPairs_eq_update_nil, lastAssign_append_single]
    cases hq : (q.1 == k) with
    | true => simp [ih]
    | false => simp [ih]

theorem dictHasKey_update {α : Type} (d c : List (String × α)) (k : String) :
    dictHasKey (dictUpdate d c) k = (dictHasKey d k || dictHasKey c k) := by
  induction c generalizing d with
  | nil => simp [dictUpdate, dictHasKey_nil]
  | cons p t ih =>
    show dictHasKey (dictUpdate (dictInsert d p.1 p.2) t) k = _
    rw [ih, dictHasKey_insert, dictHasKey_cons, Bool.or_assoc]

theorem dictHasKey_ofPairs {α : Type} (c : List (String × α)) (k : String) :
    dictHasKey (dictOfPairs c) k = dictHasKey c k := by
  rw [dictOfPairs_eq_update_nil, dictHasKey_update, dictHasKey_nil, Bool.false_or]

theorem lastAssign_isSome_of_hasKey {α : Type} (c : List (String × α)) (k : String)
    (h : dictHasKey c k = true) : ∃ v, lastAssign c k = some v := by
  induction c with
  | nil => simp [dictHasKey] at h
  | cons p t ih =>
    rw [dictHasKey_cons] at h
    cases ht : dictHasKey t k with
    | true =>
      obtain ⟨v, hv⟩ := ih ht
      exact ⟨v, by simp [lastAssign, hv]⟩
    | false =>
      have hp : (p.1 == k) = true := by
        rcases Bool.or_eq_true_iff.mp h with h1 | h2
        · exact h1
        · rw [h2] at ht; cases ht
      refine ⟨p.2, ?_⟩
      simp [lastAssign, lastAssign_none_of_hasKey_false t k ht, hp]

theorem dictHasKey_pop_self {α : Type} (d : List (String × α)) (k : String) :
    dictHasKey (dictPop d k) k = false := by
  induction d with
  | nil => rfl
  | cons p t ih =>
    cases hp : (p.1 == k) with
    | true =>
      have : (p.1 != k) = false := by simp [bne, hp]
      simp only [dictPop, List.filter_cons, this, Bool.false_eq_true, if_false]
      exact ih
    | false =>
      have : (p.1 != k) = true := by simp [bne, hp]
      simp only [dictPop, List.filter_cons, this, if_true, dictHasKey_cons, hp,
        Bool.false_or]
      exact ih

theorem dictHasKey_pop_imp {α : Type} (d : List (String × α)) (k k' : String)
    (h : dictHasKey (dictPop d k') k = true) : dictHasKey d k = true := by
  induction d with
  | nil => simp [dictPop, dictHasKey] at h
  | cons p t ih =>
    rw [dictHasKey_cons]
    cases hp : (p.1 != k') with
    | true =>
      simp only [dictPop, List.filter_cons, hp, if_true, dictHasKey_cons] at h
      rcases Bool.or_eq_true_iff.mp h with h1 | h2
      · rw [h1]; rfl
      · rw [ih h2, Bool.or_true]
    | false =>
      simp only [dictPop, List.filter_cons, hp, Bool.false_eq_true, if_false] at h
      rw [ih h, Bool.or_true]

theorem dictPop_absent {α : Type} (d : List (String × α)) (k : String)
    (h : dictHasKey d k = false) : dictPop d k = d := by
  induction d with
  | nil => rfl
  | cons p t ih =>
    rw [dictHasKey_cons, Bool.or_eq_false_iff] at h
    have hp : (p.1 != k) = true := by simp [bne, h.1]
    simp only [dictPop, List.filter_cons, hp, if_true]
    rw [show List.filter (fun p => p.1 != k) t = dictPop t k from rfl, ih h.2]

theorem foldPop_absent {α : Type} (skips : List String) (d : List (String × α))
    (h : ∀ k ∈ skips, dictHasKey d k = false) :
    skips.foldl (fun h k => dictPop h k) d = d := by
  induction skips with
  | nil => rfl
  | cons s t ih =>
    show t.foldl (fun h k => dictPop h k) (dictPop d s) = d
    rw [dictPop_absent d s (h s (List.mem_cons_self s t))]
    exact ih (fun k hk => h k (List.mem_cons_of_mem s hk))

theorem foldPop_preserves_absent {α : Type} (t : List String) (d : List (String × α))
    (k : String) (h : dictHasKey d k = false) :
    dictHasKey (t.foldl (fun h k => dictPop h k) d) k = false := by
  induction t generalizing d with
  | nil => exact h
  | cons s t ih =>
    show dictHasKey (t.foldl (fun h k => dictPop h k) (dictPop d s)) k = false
    apply ih
    cases hp : dictHasKey (dictPop d s) k with
    | false => rfl
    | true => rw [dictHasKey_pop_imp d k s hp] at h; cases h

theorem foldPop_hasKey_false {α : Type} (skips : List String) (d : List (String × α))
    (k : String) (hk : k ∈ skips) :
    dictHasKey (skips.foldl (fun h k => dictPop h k) d) k = false := by
  induction skips generalizing d with
  | nil => cases hk
  | cons s t ih =>
    show dictHasKey (t.foldl (fun h k => dictPop h k) (dictPop d s)) k = false
    rcases List.mem_cons.mp hk with h1 | h2
    · subst h1
      exact foldPop_preserves_absent t (dictPop d k) k (dictHasKey_pop_self d k)
    · exact ih _ h2

theorem dictLookup_eq_none_of_hasKey_false {α : Type} (d : List (String × α)) (k : String)
    (h : dictHasKey d k = false) : dictLookup d k = none := by
  induction d with
  | nil => rfl
  | cons p t ih =>
    rw [dictHasKey_cons, Bool.or_eq_false_iff] at h
    rw [dictLookup_cons, h.1]
    simp only [Bool.false_eq_true, if_false]
    exact ih h.2

/-! ### Stage lemmas for `get_request_info` -/

theorem request_result_base_hasKey_body (r : Request) :
    dictHasKey (request_result_base r) "body" = false := rfl

theorem request_result_base_count_body (r : Request) :
    dictCountKey (request_result_base r) "body" = 0 := rfl

theorem request_result_base_hasKey_headers (r : Request) :
    dictHasKey (request_result_base r) "headers" = false := rfl

theorem request_result_base_lookup_env (r : Request) :
    dictLookup (request_result_base r) "env" = some (strDictVal (request_env r)) := rfl

theorem request_result_headers_hasKey_body (config : Config) (r : Request)
    (sk : Option (List String)) (res : List (String × Value)) :
    dictHasKey (request_result_headers config r sk res) "body" = dictHasKey res "body" := by
  unfold request_result_headers
  cases config.capture_headers with
  | false => rfl
  | true =>
    simp only [if_true, dictHasKey_insert]
    simp

theorem request_result_headers_count_body (config : Config) (r : Request)
    (sk : Option (List String)) (res : List (String × Value)) :
    dictCountKey (request_result_headers config r sk res) "body"
      = dictCountKey res "body" := by
  unfold request_result_headers
  cases config.capture_headers with
  | false => rfl
  | true =>
    simp only [if_true]
    exact dictCountKey_insert_ne res "headers" "body" _ (by simp)

theorem request_result_headers_lookup_ne (config : Config) (r : Request)
    (sk : Option (List String)) (res : List (String × Value)) (k : String)
    (hk : k ≠ "headers") :
    dictLookup (request_result_headers config r sk res) k = dictLookup res k := by
  unfold request_result_headers
  cases config.capture_headers with
  | false => rfl
  | true =>
    simp only [if_true]
    exact dictLookup_insert_ne res "headers" k _ (fun hc => hk hc.symm)

theorem request_result_headers_lookup_self (config : Config) (r : Request)
    (sk : Option (List String)) (res : List (String × Value))
    (h : config.capture_headers = true) :
    dictLookup (request_result_headers config r sk res) "headers"
      = some (strDictVal (extract_header r.headers sk)) := by
  unfold request_result_headers
  rw [h]
  simp only [if_true]
  exact dictLookup_insert_self res "headers" _

theorem request_result_headers_hasKey_headers (config : Config) (r : Request)
    (sk : Option (List String)) (res : List (String × Value)) :
    dictHasKey (request_result_headers config r sk res) "headers"
      = (dictHasKey res "headers" || config.capture_headers) := by
  unfold request_result_headers
  cases config.capture_headers with
  | false => simp
  | true => simp [dictHasKey_insert]

theorem request_result_body_lookup (config : Config) (r : Request)
    (res : List (String × Value)) (hres : dictHasKey res "body" = false) :
    dictLookup (request_result_body config r res) "body"
      = if request_capture_body config r then
          match utf8Decode r.body with
          | some s => some (Value.s s)
          | none =>
            if request_ct_discard r then some (Value.s "[DISCARDED]") else none
        else none := by
  unfold request_result_body
  cases hcb : request_capture_body config r with
  | false =>
    simp only [Bool.false_eq_true, if_false]
    exact dictLookup_eq_none_of_hasKey_false res "body" hres
  | true =>
    simp only [if_true]
    cases hdec : utf8Decode r.body with
    | some s =>
      cases hct : request_ct_discard r with
      | true => simp [dictLookup_insert_self]
      | false => simp [dictLookup_insert_self]
    | none =>
      cases hct : request_ct_discard r with
      | true => simp [dictLookup_insert_self]
      | false =>
        simp only [Bool.false_eq_true, if_false]
        exact dictLookup_eq_none_of_hasKey_false res "body" hres

theorem request_result_body_hasKey (config : Config) (r : Request)
    (res : List (String × Value)) (hres : dictHasKey res "body" = false) :
    dictHasKey (request_result_body config r res) "body"
      = (request_capture_body config r &&
          ((utf8Decode r.body).isSome || request_ct_discard r)) := by
  unfold request_result_body
  cases hcb : request_capture_body config r with
  | false => simpa using hres
  | true =>
    simp only [if_true, Bool.true_and]
    cases hdec : utf8Decode r.body with
    | some s =>
      cases hct : request_ct_discard r with
      | true => simp [dictHasKey_insert]
      | false => simp [dictHasKey_insert]
    | none =>
      cases hct : request_ct_discard r with
      | true => simp [dictHasKey_insert]
      | false => simpa using hres

theorem request_result_body_count (config : Config) (r : Request)
    (res : List (String × Value)) (hres : dictHasKey res "body" = false)
    (hc : dictCountKey res "body" = 0) :
    dictCountKey (request_result_body config r res) "body"
      = if request_capture_body config r &&
          ((utf8Decode r.body).isSome || request_ct_discard r) then 1 else 0 := by
  unfold request_result_body
  cases hcb : request_capture_body config r with
  | false => simpa using hc
  | true =>
    simp only [if_true, Bool.true_and]
    cases hdec : utf8Decode r.body with
    | some s =>
      cases hct : request_ct_discard r with
      | true => simp [dictCountKey_insert_self, dictHasKey_insert, hres, hc]
      | false => simp [dictCountKey_insert_self, hres, hc]
    | none =>
      cases hct : request_ct_discard r with
      | true => simp [dictCountKey_insert_self, hres, hc]
      | false => simpa using hc

theorem request_result_body_lookup_ne (config : Config) (r : Request)
    (res : List (String × Value)) (k : String) (hk : k ≠ "body") :
    dictLookup (request_result_body config r res) k = dictLookup res k := by
  have hne : "body" ≠ k := fun hc => hk hc.symm
  unfold request_result_body
  cases hcb : request_capture_body config r with
  | false => rfl
  | true =>
    simp only [if_true]
    cases hdec : utf8Decode r.body with
    | some s =>
      cases hct : request_ct_discard r with
      | true =>
        simp only [if_true]
        rw [dictLookup_insert_ne _ _ _ _ hne, dictLookup_insert_ne _ _ _ _ hne]
      | false =>
        simp only [Bool.false_eq_true, if_false]
        rw [dictLookup_insert_ne _ _ _ _ hne]
    | none =>
      cases hct : request_ct_discard r with
      | true =>
        simp only [if_true]
        rw [dictLookup_insert_ne _ _ _ _ hne]
      | false => rfl

theorem request_result_body_hasKey_ne (config : Config) (r : Request)
    (res : List (String × Value)) (k : String) (hk : k ≠ "body") :
    dictHasKey (request_result_body config r res) k = dictHasKey res k := by
  have hb : ("body" == k) = false := by
    rw [beq_eq_false_iff_ne]; exact fun hc => hk hc.symm
  unfold request_result_body
  cases hcb : request_capture_body config r with
  | false => rfl
  | true =>
    simp only [if_true]
    cases hdec : utf8Decode r.body with
    | some s =>
      cases hct : request_ct_discard r with
      | true => simp [dictHasKey_insert, hb]
      | false => simp [dictHasKey_insert, hb]
    | none =>
      cases hct : request_ct_discard r with
      | true => simp [dictHasKey_insert, hb]
      | false => rfl

theorem request_result_default_body_lookup (res : List (String × Value)) :
    dictLookup (request_result_default_body res) "body"
      = if dictHasKey res "body" then dictLookup res "body"
        else some (Value.s "[REDACTED]") := by
  unfold request_result_default_body
  cases h : dictHasKey res "body" with
  | false => simp [dictLookup_insert_self]
  | true => simp

theorem request_result_default_body_count (res : List (String × Value))
    (hc : dictCountKey res "body" = if dictHasKey res "body" then 1 else 0) :
    dictCountKey (request_result_default_body res) "body" = 1 := by
  unfold request_result_default_body
  cases h : dictHasKey res "body" with
  | false =>
    simp only [Bool.not_false, if_true]
    rw [dictCountKey_insert_self, h]
    rw [h] at hc
    simp at hc
    simp [hc]
  | true =>
    simp only [Bool.not_true, Bool.false_eq_true, if_false]
    rw [h] at hc
    simpa using hc

theorem request_result_default_body_lookup_ne (res : List (String × Value)) (k : String)
    (hk : k ≠ "body") :
    dictLookup (request_result_default_body res) k = dictLookup res k := by
  have hne : "body" ≠ k := fun hc => hk hc.symm
  unfold request_result_default_body
  cases h : dictHasKey res "body" with
  | false =>
    simp only [Bool.not_false, if_true]
    exact dictLookup_insert_ne _ _ _ _ hne
  | true => simp

theorem request_result_default_body_hasKey_ne (res : List (String × Value)) (k : String)
    (hk : k ≠ "body") :
    dictHasKey (request_result_default_body res) k = dictHasKey res k := by
  have hb : ("body" == k) = false := by
    rw [beq_eq_false_iff_ne]; exact fun hc => hk hc.symm
  unfold request_result_default_body
  cases h : dictHasKey res "body" with
  | false => simp [dictHasKey_insert, hb]
  | true => simp

theorem get_request_info_lookup_body (config : Config) (r : Request)
    (sk : Option (List String)) :
    dictLookup (get_request_info config r sk) "body"
      = some (Value.s (
          if request_capture_body config r then
            match utf8Decode r.body with
            | some s => s
            | none => if request_ct_discard r then "[DISCARDED]" else "[REDACTED]"
          else "[REDACTED]")) := by
  unfold get_request_info
  rw [dictLookup_insert_ne _ _ _ _ (by decide : "url" ≠ "body")]
  rw [request_result_default_body_lookup]
  have hhk : dictHasKey (request_result_headers config r sk (request_result_base r))
      "body" = false := by
    rw [request_result_headers_hasKey_body, request_result_base_hasKey_body]
  rw [request_result_body_hasKey config r _ hhk, request_result_body_lookup config r _ hhk]
  cases hcb : request_capture_body config r with
  | false => simp
  | true =>
    cases hdec : utf8Decode r.body with
    | some s => simp
    | none =>
      cases hct : request_ct_discard r with
      | true => simp
      | false => simp

theorem get_request_info_count_body (config : Config) (r : Request)
    (sk : Option (List String)) :
    dictCountKey (get_request_info config r sk) "body" = 1 := by
  unfold get_request_info
  rw [dictCountKey_insert_ne _ _ _ _ (by decide : "url" ≠ "body")]
  apply request_result_default_body_count
  have hhk : dictHasKey (request_result_headers config r sk (request_result_base r))
      "body" = false := by
    rw [request_result_headers_hasKey_body, request_result_base_hasKey_body]
  have hcnt : dictCountKey (request_result_headers config r sk (request_result_base r))
      "body" = 0 := by
    rw [request_result_headers_count_body, request_result_base_count_body]
  rw [request_result_body_count config r _ hhk hcnt, request_result_body_hasKey config r _ hhk]

theorem get_request_info_headers_absent (config : Config) (r : Request)
    (sk : Option (List String)) (h : config.capture_headers = false) :
    dictHasKey (get_request_info config r sk) "headers" = false := by
  unfold get_request_info
  rw [dictHasKey_insert]
  rw [request_result_default_body_hasKey_ne _ _ (by decide : "headers" ≠ "body")]
  rw [request_result_body_hasKey_ne _ _ _ _ (by decide : "headers" ≠ "body")]
  rw [request_result_headers_hasKey_headers, request_result_base_hasKey_headers, h]
  rfl

theorem get_request_info_headers_present (config : Config) (r : Request)
    (sk : Option (List String)) (h : config.capture_headers = true) :
    dictLookup (get_request_info config r sk) "headers"
      = some (strDictVal (extract_header r.headers sk)) := by
  unfold get_request_info
  rw [dictLookup_insert_ne _ _ _ _ (by decide : "url" ≠ "headers")]
  rw [request_result_default_body_lookup_ne _ _ (by decide : "headers" ≠ "body")]
  rw [request_result_body_lookup_ne _ _ _ _ (by decide : "headers" ≠ "body")]
  exact request_result_headers_lookup_self config r sk _ h

theorem get_request_info_lookup_env (config : Config) (r : Request)
    (sk : Option (List String)) :
    dictLookup (get_request_info config r sk) "env"
      = some (strDictVal (request_env r)) := by
  unfold get_request_info
  rw [dictLookup_insert_ne _ _ _ _ (by decide : "url" ≠ "env")]
  rw [request_result_default_body_lookup_ne _ _ (by decide : "env" ≠ "body")]
  rw [request_result_body_lookup_ne _ _ _ _ (by decide : "env" ≠ "body")]
  rw [request_result_headers_lookup_ne _ _ _ _ _ (by decide : "env" ≠ "headers")]
  exact request_result_base_lookup_env r

/-! ### Stage lemmas for `get_response_info` -/

theorem response_result_base_hasKey_body (resp : Response) :
    dictHasKey (response_result_base resp) "body" = false := by
  unfold response_result_base
  cases resp.status <;> rfl

theorem response_result_base_count_body (resp : Response) :
    dictCountKey (response_result_base resp) "body" = 0 := by
  unfold response_result_base
  cases resp.status <;> rfl

theorem response_result_base_hasKey_headers (resp : Response) :
    dictHasKey (response_result_base resp) "headers" = false := by
  unfold response_result_base
  cases resp.status <;> rfl

theorem response_result_headers_hasKey_body (config : Config) (resp : Response)
    (sk : Option (List String)) (res : List (String × Value)) :
    dictHasKey (response_result_headers config resp sk res) "body"
      = dictHasKey res "body" := by
  unfold response_result_headers
  cases config.capture_headers with
  | false => rfl
  | true => simp [dictHasKey_insert]

theorem response_result_headers_count_body (config : Config) (resp : Response)
    (sk : Option (List String)) (res : List (String × Value)) :
    dictCountKey (response_result_headers config resp sk res) "body"
      = dictCountKey res "body" := by
  unfold response_result_headers
  cases config.capture_headers with
  | false => rfl
  | true =>
    simp only [if_true]
    exact dictCountKey_insert_ne res "headers" "body" _ (by decide)

theorem response_result_headers_lookup_self (config : Config) (resp : Response)
    (sk : Option (List String)) (res : List (String × Value))
    (h : config.capture_headers = true) :
    dictLookup (response_result_headers config resp sk res) "headers"
      = some (strDictVal (extract_header resp.headers sk)) := by
  unfold response_result_headers
  rw [h]
  simp only [if_true]
  exact dictLookup_insert_self res "headers" _

theorem response_result_headers_hasKey_headers (config : Config) (resp : Response)
    (sk : Option (List String)) (res : List (String × Value)) :
    dictHasKey (response_result_headers config resp sk res) "headers"
      = (dictHasKey res "headers" || config.capture_headers) := by
  unfold response_result_headers
  cases config.capture_headers with
  | false => simp
  | true => simp [dictHasKey_insert]

theorem get_response_info_body (config : Config) (resp : Response)
    (sk : Option (List String)) (res : List (String × Value))
    (h : get_response_info config resp sk = some res) :
    dictLookup res "body" = some (Value.s "[REDACTED]")
      ∨ ∃ s, utf8Decode resp.body = some s
          ∧ dictLookup res "body" = some (Value.s s) := by
  unfold get_response_info at h
  cases hg : (config.capture_body && !strContains resp.content_type "octet-stream") with
  | true =>
    rw [hg] at h
    simp only [if_true] at h
    cases hdec : utf8Decode resp.body with
    | none => rw [hdec] at h; cases h
    | some s =>
      rw [hdec] at h
      refine Or.inr ⟨s, rfl, ?_⟩
      have hres : res = dictInsert (response_result_headers config resp sk
          (response_result_base resp)) "body" (Value.s s) := (Option.some_injective _ h).symm
      rw [hres]
      exact dictLookup_insert_self _ _ _
  | false =>
    rw [hg] at h
    simp only [Bool.false_eq_true, if_false] at h
    have hres : res = dictInsert (response_result_headers config resp sk
        (response_result_base resp)) "body" (Value.s "[REDACTED]") :=
      (Option.some_injective _ h).symm
    rw [hres]
    exact Or.inl (dictLookup_insert_self _ _ _)

theorem get_response_info_count_body (config : Config) (resp : Response)
    (sk : Option (List String)) (res : List (String × Value))
    (h : get_response_info config resp sk = some res) :
    dictCountKey res "body" = 1 := by
  have hhk : dictHasKey (response_result_headers config resp sk
      (response_result_base resp)) "body" = false := by
    rw [response_result_headers_hasKey_body, response_result_base_hasKey_body]
  have hcnt : dictCountKey (response_result_headers config resp sk
      (response_result_base resp)) "body" = 0 := by
    rw [response_result_headers_count_body, response_result_base_count_body]
  unfold get_response_info at h
  cases hg : (config.capture_body && !strContains resp.content_type "octet-stream") with
  | true =>
    rw [hg] at h
    simp only [if_true] at h
    cases hdec : utf8Decode resp.body with
    | none => rw [hdec] at h; cases h
    | some s =>
      rw [hdec] at h
      have hres : res = dictInsert (response_result_headers config resp sk
          (response_result_base resp)) "body" (Value.s s) := (Option.some_injective _ h).symm
      rw [hres, dictCountKey_insert_self, hhk]
      simp [hcnt]
  | false =>
    rw [hg] at h
    simp only [Bool.false_eq_true, if_false] at h
    have hres : res = dictInsert (response_result_headers config resp sk
        (response_result_base resp)) "body" (Value.s "[REDACTED]") :=
      (Option.some_injective _ h).symm
    rw [hres, dictCountKey_insert_self, hhk]
    simp [hcnt]

theorem get_response_info_headers_absent (config : Config) (resp : Response)
    (sk : Option (List String)) (res : List (String × Value))
    (hch : config.capture_headers = false)
    (h : get_response_info config resp sk = some res) :
    dictHasKey res "headers" = false := by
  have hstage : dictHasKey (response_result_headers config resp sk
      (response_result_base resp)) "headers" = false := by
    rw [response_result_headers_hasKey_headers, response_result_base_hasKey_headers, hch]
    rfl
  unfold get_response_info at h
  cases hg : (config.capture_body && !strContains resp.content_type "octet-stream") with
  | true =>
    rw [hg] at h
    simp only [if_true] at h
    cases hdec : utf8Decode resp.body with
    | none => rw [hdec] at h; cases h
    | some s =>
      rw [hdec] at h
      have hres : res = dictInsert (response_result_headers config resp sk
          (response_result_base resp)) "body" (Value.s s) := (Option.some_injective _ h).symm
      rw [hres, dictHasKey_insert, hstage]
      rfl
  | false =>
    rw [hg] at h
    simp only [Bool.false_eq_true, if_false] at h
    have hres : res = dictInsert (response_result_headers config resp sk
        (response_result_base resp)) "body" (Value.s "[REDACTED]") :=
      (Option.some_injective _ h).symm
    rw [hres, dictHasKey_insert, hstage]
    rfl

theorem get_response_info_headers_present (config : Config) (resp : Response)
    (sk : Option (List String)) (res : List (String × Value))
    (hch : config.capture_headers = true)
    (h : get_response_info config resp sk = some res) :
    dictLookup res "headers" = some (strDictVal (extract_header resp.headers sk)) := by
  have hstage := response_result_headers_lookup_self config resp sk
    (response_result_base resp) hch
  unfold get_response_info at h
  cases hg : (config.capture_body && !strContains resp.content_type "octet-stream") with
  | true =>
    rw [hg] at h
    simp only [if_true] at h
    cases hdec : utf8Decode resp.body with
    | none => rw [hdec] at h; cases h
    | some s =>
      rw [hdec] at h
      have hres : res = dictInsert (response_result_headers config resp sk
          (response_result_base resp)) "body" (Value.s s) := (Option.some_injective _ h).symm
      rw [hres, dictLookup_insert_ne _ _ _ _ (by decide : "body" ≠ "headers"), hstage]
  | false =>
    rw [hg] at h
    simp only [Bool.false_eq_true, if_false] at h
    have hres : res = dictInsert (response_result_headers config resp sk
        (response_result_base resp)) "body" (Value.s "[REDACTED]") :=
      (Option.some_injective _ h).symm
    rw [hres, dictLookup_insert_ne _ _ _ _ (by decide : "body" ≠ "headers"), hstage]

theorem get_response_info_none_of_decode_failure (config : Config) (resp : Response)
    (sk : Option (List String)) (hcb : config.capture_body = true)
    (hct : strContains resp.content_type "octet-stream" = false)
    (hdec : utf8Decode resp.body = none) :
    get_response_info config resp sk = none := by
  unfold get_response_info
  rw [hcb, hct, hdec]
  rfl

/-! ### Claim theorems -/

/-- Claim C4: for every request, if body-capture is disabled in the
config, the RequestInfo produced by `get_request_info` has `body` equal
to the literal marker `"[REDACTED]"`. -/
theorem c4_body_redacted_when_capture_off (config : Config) (r : Request)
    (sk : Option (List String)) (h : config.capture_body = false) :
    dictLookup (get_request_info config r sk) "body" = some (Value.s "[REDACTED]") := by
  rw [get_request_info_lookup_body]
  have hc : request_capture_body config r = false := by
    unfold request_capture_body
    rw [h, Bool.and_false]
  rw [hc]
  rfl

/-- Witness for C4 at a concrete config and request. -/
theorem c4_witness :
    cfgAllOff.capture_body = false
    ∧ dictLookup (get_request_info cfgAllOff reqJson none) "body"
        = some (Value.s "[REDACTED]") :=
  ⟨rfl, c4_body_redacted_when_capture_off cfgAllOff reqJson none rfl⟩

/-- Claim C5: for every request with a body-bearing method, body-capture
enabled, a content-type that is neither multipart nor octet-stream, and
a valid UTF-8 body, `get_request_info` reports `body` equal to the
decoded body string exactly. -/
theorem c5_body_decoded_exactly (config : Config) (r : Request)
    (sk : Option (List String)) (s : String)
    (hm : HTTP_WITH_BODY.contains r.method = true)
    (hcb : config.capture_body = true)
    (hmp : strStartsWith r.content_type "multipart" = false)
    (hos : strContains r.content_type "octet-stream" = false)
    (hdec : utf8Decode r.body = some s) :
    dictLookup (get_request_info config r sk) "body" = some (Value.s s) := by
  rw [get_request_info_lookup_body]
  have hc : request_capture_body config r = true := by
    unfold request_capture_body
    rw [hm, hcb, Bool.and_self]
  rw [hc, hdec]
  rfl

/-- Witness for C5 at a concrete config and request with body `"ab"`. -/
theorem c5_witness :
    HTTP_WITH_BODY.contains reqJson.method = true
    ∧ cfgAllOn.capture_body = true
    ∧ strStartsWith reqJson.content_type "multipart" = false
    ∧ strContains reqJson.content_type "octet-stream" = false
    ∧ utf8Decode reqJson.body = some "ab"
    ∧ dictLookup (get_request_info cfgAllOn reqJson none) "body" = some (Value.s "ab") :=
  ⟨rfl, rfl, rfl, rfl, rfl,
   c5_body_decoded_exactly cfgAllOn reqJson none "ab" rfl rfl rfl rfl rfl⟩

/-- Claim C1 (code bug witness): a multipart request whose raw body is
valid UTF-8 yields the decoded string, not the discarded marker: the
unconditional decode after the discarded-marker assignment overwrites
the marker whenever the decode succeeds. -/
theorem c1_multipart_body_overwritten :
    HTTP_WITH_BODY.contains reqMulti.method = true
    ∧ cfgAllOn.capture_body = true
    ∧ strStartsWith reqMulti.content_type "multipart" = true
    ∧ utf8Decode reqMulti.body = some "a"
    ∧ dictLookup (get_request_info cfgAllOn reqMulti none) "body" = some (Value.s "a")
    ∧ "a" ≠ "[DISCARDED]" :=
  ⟨rfl, rfl, rfl, rfl, rfl, by simp⟩

/-- Claim C2 counterexample: a decode failure in `get_response_info` is
not recovered: the unguarded decode propagates the failure to the
caller (no mapping is produced) instead of degrading the body to the
redacted marker. -/
theorem c2_response_decode_failure_raises :
    cfgAllOn.capture_body = true
    ∧ strContains respBad.content_type "octet-stream" = false
    ∧ utf8Decode respBad.body = none
    ∧ get_response_info cfgAllOn respBad none = none :=
  ⟨rfl, rfl, rfl, rfl⟩

/-- Claim C2 as amended: in `get_request_info` a body decode failure is
swallowed and the body falls back to a marker: `"[REDACTED]"` when the
discarded marker was not set, `"[DISCARDED]"` when it was; in
`get_response_info` the decode is unguarded, so under enabled body
capture on non-octet-stream content a decode failure propagates to the
caller rather than yielding `"[REDACTED]"`. -/
theorem c2_amended_decode_failure_handling (config : Config) (r : Request)
    (resp : Response) (sk sk2 : Option (List String))
    (hreq : utf8Decode r.body = none) (hresp : utf8Decode resp.body = none) :
    dictLookup (get_request_info config r sk) "body"
      = some (Value.s (if request_capture_body config r && request_ct_discard r
          then "[DISCARDED]" else "[REDACTED]"))
    ∧ (config.capture_body = true →
        strContains resp.content_type "octet-stream" = false →
        get_response_info config resp sk2 = none) := by
  constructor
  · rw [get_request_info_lookup_body, hreq]
    cases hcb : request_capture_body config r with
    | false => simp
    | true =>
      cases hct : request_ct_discard r with
      | true => simp
      | false => simp
  · intro h1 h2
    exact get_response_info_none_of_decode_failure config resp sk2 h1 h2 hresp

/-- Witness for the amended C2 at concrete inputs with invalid UTF-8
bodies. -/
theorem c2_witness :
    utf8Decode reqMultiBad.body = none
    ∧ utf8Decode respBad.body = none
    ∧ dictLookup (get_request_info cfgAllOn reqMultiBad none) "body"
        = some (Value.s "[DISCARDED]")
    ∧ dictLookup (get_request_info cfgAllOn reqBadBody none) "body"
        = some (Value.s "[REDACTED]")
    ∧ get_response_info cfgAllOn respBad none = none := by
  refine ⟨rfl, rfl, ?_, ?_, ?_⟩
  · exact (c2_amended_decode_failure_handling cfgAllOn reqMultiBad respBad none none
      rfl rfl).1
  · exact (c2_amended_decode_failure_handling cfgAllOn reqBadBody respBad none none
      rfl rfl).1
  · exact (c2_amended_decode_failure_handling cfgAllOn reqBadBody respBad none none
      rfl rfl).2 rfl rfl

/-- Claim C3: both info functions always put the key `body` in the
returned mapping exactly once, and its value is the decoded UTF-8
string, the discarded marker, or the redacted marker (for responses the
discarded marker never occurs; when the response decode raises, no
mapping is returned at all). -/
theorem c3_body_key_exactly_once (config : Config) (r : Request) (resp : Response)
    (sk : Option (List String)) :
    (dictCountKey (get_request_info config r sk) "body" = 1
      ∧ (dictLookup (get_request_info config r sk) "body" = some (Value.s "[REDACTED]")
         ∨ dictLookup (get_request_info config r sk) "body" = some (Value.s "[DISCARDED]")
         ∨ ∃ s, utf8Decode r.body = some s
             ∧ dictLookup (get_request_info config r sk) "body" = some (Value.s s)))
    ∧ ∀ res, get_response_info config resp sk = some res →
        dictCountKey res "body" = 1
        ∧ (dictLookup res "body" = some (Value.s "[REDACTED]")
           ∨ ∃ s, utf8Decode resp.body = some s
               ∧ dictLookup res "body" = some (Value.s s)) := by
  refine ⟨⟨get_request_info_count_body config r sk, ?_⟩, fun res h =>
    ⟨get_response_info_count_body config resp sk res h,
     get_response_info_body config resp sk res h⟩⟩
  rw [get_request_info_lookup_body]
  cases hcb : request_capture_body config r with
  | false => exact Or.inl rfl
  | true =>
    cases hdec : utf8Decode r.body with
    | some s => exact Or.inr (Or.inr ⟨s, rfl, rfl⟩)
    | none =>
      cases hct : request_ct_discard r with
      | true => exact Or.inr (Or.inl rfl)
      | false => exact Or.inl rfl

/-- Witness for C3: the request side at a concrete input, and the
response side with its hypothesis discharged by the concrete value of
`get_response_info`. -/
theorem c3_witness :
    dictCountKey (get_request_info cfgAllOn reqJson none) "body" = 1
    ∧ dictCountKey [("cookies", strDictVal respOk.cookies),
        ("status_code", Value.i 200),
        ("headers", strDictVal (extract_header respOk.headers none)),
        ("body", Value.s "ok")] "body" = 1 :=
  ⟨(c3_body_key_exactly_once cfgAllOn reqJson respOk none).1.1,
   ((c3_body_key_exactly_once cfgAllOn reqJson respOk none).2 _ rfl).1⟩

/-- Claim C6: `_get_client_ip` resolves the client address through the
strict fallback chain forwarded-for, socket pair, ip/port attributes,
remote address, including the three concrete examples of the spec. -/
theorem c6_client_address_chain (r : Request) :
    (r.forwarded ≠ "" → _get_client_ip r = (pySplitComma r.forwarded).headD "")
    ∧ (r.forwarded = "" → r.socket ≠ (none, none) →
        _get_client_ip r = pyStrOf r.socket.1 ++ ":" ++ pyNatOf r.socket.2)
    ∧ (r.forwarded = "" → r.socket = (none, none) → r.ip ≠ "" → r.port ≠ 0 →
        _get_client_ip r = r.ip ++ ":" ++ toString r.port)
    ∧ (r.forwarded = "" → r.socket = (none, none) → (r.ip = "" ∨ r.port = 0) →
        _get_client_ip r = r.remote_addr)
    ∧ (r.forwarded = "1.2.3.4, 5.6.7.8" → _get_client_ip r = "1.2.3.4")
    ∧ (r.forwarded = "" → r.socket = (some "9.9.9.9", some 80) →
        _get_client_ip r = "9.9.9.9:80")
    ∧ (r.forwarded = "" → r.socket = (none, none) → r.ip = "7.7.7.7" → r.port = 8080 →
        _get_client_ip r = "7.7.7.7:8080") := by
  refine ⟨?_, ?_, ?_, ?_, ?_, ?_, ?_⟩
  · intro hf
    unfold _get_client_ip
    rw [if_pos hf]
  · intro hf hs
    unfold _get_client_ip
    rw [if_neg (fun hc => hc hf), if_pos hs]
  · intro hf hs hip hp
    unfold _get_client_ip
    rw [if_neg (fun hc => hc hf), if_neg (fun hc => hc hs), if_pos ⟨hip, hp⟩]
  · intro hf hs hd
    unfold _get_client_ip
    rw [if_neg (fun hc => hc hf), if_neg (fun hc => hc hs)]
    rcases hd with hd | hd
    · rw [if_neg (fun hc => hc.1 hd)]
    · rw [if_neg (fun hc => hc.2 hd)]
  · intro hf
    unfold _get_client_ip
    rw [hf]
    rfl
  · intro hf hs
    unfold _get_client_ip
    rw [hf, hs]
    rfl
  · intro hf hs hip hp
    unfold _get_client_ip
    rw [hf, hs, hip, hp]
    rfl

/-- Witness for C6 at the three concrete requests of the spec's
examples. -/
theorem c6_witness :
    _get_client_ip reqFwd = "1.2.3.4"
    ∧ _get_client_ip reqSock = "9.9.9.9:80"
    ∧ _get_client_ip reqIpPort = "7.7.7.7:8080" :=
  ⟨(c6_client_address_chain reqFwd).2.2.2.2.1 rfl,
   (c6_client_address_chain reqSock).2.2.2.2.2.1 rfl rfl,
   (c6_client_address_chain reqIpPort).2.2.2.2.2.2 rfl rfl rfl rfl⟩

/-- Claim C7 counterexample: a skip list holding one absent name
(`"b"`) and one present name (`"a"`) satisfies the claim's hypothesis
(some listed header is absent) but the present one is removed, so the
original headers are not returned unchanged. -/
theorem c7_counterexample :
    "b" ∈ ["a", "b"]
    ∧ dictHasKey (dictOfPairs [("a", "1")]) "b" = false
    ∧ extract_header [("a", "1")] (some ["a", "b"]) = []
    ∧ dictLookup (extract_header [("a", "1")] (some ["a", "b"])) "a" = none :=
  ⟨by simp, rfl, rfl, rfl⟩

/-- Claim C7 as amended: when none of the skip list's names occurs
among the entity's headers, `extract_header` returns all original
headers unchanged; the absence of a listed header is not an error. -/
theorem c7_amended_skip_absent_headers (hd : List (String × String))
    (skips : List String)
    (habs : ∀ k ∈ skips, dictHasKey (dictOfPairs hd) k = false) :
    extract_header hd (some skips) = dictOfPairs hd := by
  show (if skips.isEmpty then dictOfPairs hd
        else skips.foldl (fun h k => dictPop h k) (dictOfPairs hd)) = dictOfPairs hd
  cases hs : skips.isEmpty with
  | true => rw [if_pos rfl]
  | false =>
    rw [if_neg (by simp)]
    exact foldPop_absent skips _ habs

/-- Witness for the amended C7: a two-element skip list of absent
names leaves the headers unchanged. -/
theorem c7_witness :
    (∀ k ∈ ["x", "y"], dictHasKey (dictOfPairs [("a", "1")]) k = false)
    ∧ extract_header [("a", "1")] (some ["x", "y"]) = dictOfPairs [("a", "1")] :=
  ⟨by decide, c7_amended_skip_absent_headers [("a", "1")] ["x", "y"] (by decide)⟩

/-- Claim C8: `get_env` yields exactly the pairs of the present
attributes of the fixed list `server_name`, `server_port`, `version`,
in the fixed-list order; absent attributes are skipped silently. -/
theorem c8_get_env_fixed_order (r : Request) :
    get_env r = (r.server_name.map (fun v => ("server_name", v))).toList
      ++ ((r.server_port.map (fun v => ("server_port", v))).toList
      ++ (r.version.map (fun v => ("version", v))).toList) := by
  unfold get_env
  cases hsn : r.server_name <;> cases hsp : r.server_port <;> cases hv : r.version <;> rfl

/-- Claim C9: the `headers` key is absent from both info results when
`capture_headers` is disabled, and present with the skip-listed
headers removed when enabled. -/
theorem c9_headers_iff_capture (config : Config) (r : Request) (resp : Response)
    (sk : Option (List String)) :
    (config.capture_headers = false →
      dictHasKey (get_request_info config r sk) "headers" = false
      ∧ ∀ res, get_response_info config resp sk = some res →
          dictHasKey res "headers" = false)
    ∧ (config.capture_headers = true →
      dictLookup (get_request_info config r sk) "headers"
        = some (strDictVal (extract_header r.headers sk))
      ∧ ∀ res, get_response_info config resp sk = some res →
          dictLookup res "headers" = some (strDictVal (extract_header resp.headers sk)))
    ∧ ∀ skips k, k ∈ skips →
        dictHasKey (extract_header r.headers (some skips)) k = false := by
  refine ⟨fun h => ⟨get_request_info_headers_absent config r sk h,
      fun res hres => get_response_info_headers_absent config resp sk res h hres⟩,
    fun h => ⟨get_request_info_headers_present config r sk h,
      fun res hres => get_response_info_headers_present config resp sk res h hres⟩,
    fun skips k hk => ?_⟩
  show dictHasKey (if skips.isEmpty then dictOfPairs r.headers
      else skips.foldl (fun h k => dictPop h k) (dictOfPairs r.headers)) k = false
  cases hs : skips.isEmpty with
  | true =>
    exfalso
    rw [List.isEmpty_iff] at hs
    subst hs
    cases hk
  | false =>
    rw [if_neg (by simp)]
    exact foldPop_hasKey_false skips _ k hk

/-- Witness for C9 with header capture off and on, and a skip-listed
header shown removed. -/
theorem c9_witness :
    dictHasKey (get_request_info cfgAllOff reqJson none) "headers" = false
    ∧ dictLookup (get_request_info cfgAllOn reqJson (some ["X-Secret"])) "headers"
        = some (strDictVal (extract_header reqJson.headers (some ["X-Secret"])))
    ∧ dictHasKey (extract_header reqJson.headers (some ["X-Secret"])) "X-Secret" = false :=
  ⟨((c9_headers_iff_capture cfgAllOff reqJson respOk none).1 rfl).1,
   ((c9_headers_iff_capture cfgAllOn reqJson respOk (some ["X-Secret"])).2.1 rfl).1,
   (c9_headers_iff_capture cfgAllOn reqJson respOk none).2.2 ["X-Secret"] "X-Secret"
     (by simp)⟩

/-- Claim C10: the app-config snapshot overrides the request's
environment attribute pairs on key collision in the `env` mapping of
the RequestInfo. -/
theorem c10_app_config_overrides_env (config : Config) (r : Request)
    (sk : Option (List String)) (k : String)
    (h1 : dictHasKey (dictOfPairs (get_env r)) k = true)
    (h2 : dictHasKey (dictOfPairs r.app_config) k = true) :
    dictLookup (get_request_info config r sk) "env" = some (strDictVal (request_env r))
    ∧ dictLookup (request_env r) k = dictLookup (dictOfPairs r.app_config) k := by
  refine ⟨get_request_info_lookup_env config r sk, ?_⟩
  unfold request_env
  rw [dictLookup_update, lastAssign_ofPairs, dictLookup_ofPairs]
  have hk2 : dictHasKey r.app_config k = true := by
    rw [← dictHasKey_ofPairs]
    exact h2
  obtain ⟨v, hv⟩ := lastAssign_isSome_of_hasKey r.app_config k hk2
  rw [hv, dictLookup_ofPairs, hv]

/-- Witness for C10: `server_name` collides between the request's
environment attributes and the app config; the app-config value wins. -/
theorem c10_witness :
    dictHasKey (dictOfPairs (get_env reqJson)) "server_name" = true
    ∧ dictHasKey (dictOfPairs reqJson.app_config) "server_name" = true
    ∧ dictLookup (request_env reqJson) "server_name" = some "app-srv" := by
  refine ⟨rfl, rfl, ?_⟩
  rw [(c10_app_config_overrides_env cfgAllOn reqJson none "server_name" rfl rfl).2]
  rfl

end ApmSanic
